import Mathlib

/-!
Verification development for the `pg-data-listener` repository (Go).

The source (`src/main.go`) implements a Postgres LISTEN/NOTIFY dispatcher:

* `ChangeNotification` — the decoded envelope (`table`, `operation`,
  `data json.RawMessage`, `timestamp time.Time`).
* `RegisterHandler` — stores a `TableChangeHandler` in the map
  `dl.handlers` under a table name (plain Go map assignment).
* `handleNotification` — `json.Unmarshal`s the payload, looks the table
  up in `dl.handlers`, and either returns the parse error, silently
  returns `nil` for an unknown table, or invokes the handler with
  `(operation, data)` and returns the handler's error.
* `Start` — builds a `pq.Listener` with minimum reconnect interval 10s
  and maximum 60s, subscribes to channel `data_changes`, then loops:
  a received notification is dispatched (errors only logged); after 15s
  without a notification a `Ping` is issued, and a failing ping returns
  its error, terminating the loop.

The embedding below translates these functions into pure Lean
definitions.  Effects are made explicit: `handleNotification` returns
the (unchanged) listener state together with an observable result, and
the dispatch loop consumes a list of loop inputs and produces a trace
of consumer invocations, logged errors and liveness probes.
-/

namespace PgDataListener

/-- JSON values, the parse trees of the wire payloads.  Numbers are
modelled as integers; none of the envelope fields of the source is
numeric and `data` is treated opaquely, so the number representation is
never inspected. -/
inductive Json where
  | null
  | bool (b : Bool)
  | num (n : Int)
  | str (s : String)
  | arr (elems : List Json)
  | obj (fields : List (String × Json))

/-- A raw notification payload, represented by its JSON parse result:
`malformed` stands for any text rejected by the JSON grammar (for which
`json.Unmarshal` reports a syntax error), `json j` for a text that
parses to the value `j`. -/
inductive RawText where
  | malformed
  | json (j : Json)

/-- A Go `time.Time` as it is observable through the envelope: the
RFC 3339 text it was decoded from.  The zero `time.Time` renders as
`0001-01-01T00:00:00Z`. -/
structure GoTime where
  rfc3339 : String
deriving DecidableEq

/-- Zero value of `time.Time`. -/
def GoTime.zero : GoTime := ⟨"0001-01-01T00:00:00Z"⟩

/-- Numeric value of a decimal digit character. -/
def digitVal (c : Char) : Nat := c.toNat - 48

/-- Parse exactly two decimal digits into their value. -/
def parse2 : List Char → Option (Nat × List Char)
  | c1 :: c2 :: rest =>
    if c1.isDigit && c2.isDigit then
      some (10 * digitVal c1 + digitVal c2, rest)
    else none
  | _ => none

/-- Parse exactly four decimal digits into their value. -/
def parse4 : List Char → Option (Nat × List Char)
  | c1 :: c2 :: c3 :: c4 :: rest =>
    if c1.isDigit && c2.isDigit && c3.isDigit && c4.isDigit then
      some (1000 * digitVal c1 + 100 * digitVal c2 + 10 * digitVal c3 + digitVal c4,
            rest)
    else none
  | _ => none

/-- Leap-year rule of the proleptic Gregorian calendar, as Go
`time.isLeap` uses when validating the day of month. -/
def isLeapYear (y : Nat) : Bool :=
  (decide (y % 4 = 0) && decide (y % 100 ≠ 0)) || decide (y % 400 = 0)

/-- Number of days in a month of a year, as Go `time.daysIn`. -/
def daysIn (month year : Nat) : Nat :=
  if month = 2 then (if isLeapYear year then 29 else 28)
  else if month = 4 ∨ month = 6 ∨ month = 9 ∨ month = 11 then 30
  else 31

/-- Timezone suffix of an RFC 3339 timestamp: `Z`, or a sign followed
by a two-digit hour at most 23, a colon, and a two-digit minute at
most 59 — `time.Parse` range-checks the offset components. -/
def rfcSuffix : List Char → Bool
  | ['Z'] => true
  | c :: rest =>
    (decide (c = '+') || decide (c = '-')) &&
      (match parse2 rest with
       | some (hh, d :: r2) =>
         decide (d = ':') && decide (hh ≤ 23) &&
           (match parse2 r2 with
            | some (mm, r3) => r3.isEmpty && decide (mm ≤ 59)
            | none => false)
       | _ => false)
  | [] => false

/-- Optional fractional seconds — a period or comma (both accepted by
`time.Parse` since Go 1.17) followed by at least one digit — and then
the timezone suffix. -/
def rfcFraction : List Char → Bool
  | c :: rest =>
    if c = '.' || c = ',' then
      let ds := rest.takeWhile Char.isDigit
      decide (0 < ds.length) && rfcSuffix (rest.drop ds.length)
    else rfcSuffix (c :: rest)
  | [] => false

/-- Acceptance of RFC 3339 timestamps by Go `time.Time.UnmarshalJSON`,
which parses with `time.Parse(time.RFC3339, ...)`: a four-digit year
and two-digit month, day, hour, minute and second with their literal
separators, every component range-validated (month 1–12, day 1 to the
month's length in the year including leap years, hour at most 23,
minute and second at most 59), optional fractional seconds, and a `Z`
or `±HH:MM` timezone suffix with the offset range-validated. -/
def isRFC3339 (s : String) : Bool :=
  match parse4 s.data with
  | some (year, c1 :: r1) =>
    decide (c1 = '-') &&
      (match parse2 r1 with
       | some (month, c2 :: r2) =>
         decide (c2 = '-') &&
           (match parse2 r2 with
            | some (day, c3 :: r3) =>
              decide (c3 = 'T') &&
                (match parse2 r3 with
                 | some (hour, c4 :: r4) =>
                   decide (c4 = ':') &&
                     (match parse2 r4 with
                      | some (minute, c5 :: r5) =>
                        decide (c5 = ':') &&
                          (match parse2 r5 with
                           | some (second, r6) =>
                             decide (1 ≤ month) && decide (month ≤ 12) &&
                             decide (1 ≤ day) &&
                             decide (day ≤ daysIn month year) &&
                             decide (hour ≤ 23) && decide (minute ≤ 59) &&
                             decide (second ≤ 59) && rfcFraction r6
                           | none => false)
                      | _ => false)
                 | _ => false)
            | _ => false)
       | _ => false)
  | _ => false

/-- The decoded envelope, `ChangeNotification` from `src/main.go`
(lines 13–18).  `Data` is a `json.RawMessage`: the raw value of the
`data` field, kept verbatim; `none` models the nil `RawMessage` of a
payload without a `data` field. -/
structure ChangeNotification where
  table : String
  operation : String
  data : Option Json
  timestamp : GoTime

/-- The zero value of `ChangeNotification`: what `json.Unmarshal` fills
in for fields absent from the payload. -/
def emptyChangeNotification : ChangeNotification :=
  { table := "", operation := "", data := none, timestamp := GoTime.zero }

/-- Character folding for JSON key matching, as Go `encoding/json`
folds field names: ASCII letters are lowercased (`Char.toLower` only
affects basic latin letters), and the two non-ASCII characters whose
simple case folding reaches ASCII — U+017F LATIN SMALL LETTER LONG S
and U+212A KELVIN SIGN — fold to `s` and `k`; every other character is
left unchanged. -/
def foldChar (c : Char) : Char :=
  if c.toNat = 0x17F then 's'
  else if c.toNat = 0x212A then 'k'
  else c.toLower

/-- Key folding used for matching payload object keys to struct
fields: Go `encoding/json` matches keys to field names
case-insensitively, folding each character with `foldChar`. -/
def foldKey (s : String) : String :=
  ⟨s.data.map foldChar⟩

/-- Error produced when a field of the payload object has a value of
the wrong type, mirroring Go `encoding/json`: object keys are matched
to struct fields case-insensitively; `table` and `operation` require a
JSON string, `timestamp` an RFC 3339 string (via
`time.Time.UnmarshalJSON`), `data` accepts any value (`json.RawMessage`
never fails); a JSON `null` leaves any field untouched without error;
unknown keys are ignored. -/
def fieldError (k : String) (v : Json) : Option String :=
  if foldKey k = "table" then
    match v with
    | .str _ => none
    | .null => none
    | _ => some "cannot unmarshal value into Go struct field table of type string"
  else if foldKey k = "operation" then
    match v with
    | .str _ => none
    | .null => none
    | _ => some "cannot unmarshal value into Go struct field operation of type string"
  else if foldKey k = "data" then none
  else if foldKey k = "timestamp" then
    match v with
    | .str s => if isRFC3339 s then none else some "parsing time as RFC3339 failed"
    | .null => none
    | _ => some "Time.UnmarshalJSON: input is not a JSON string"
  else none

/-- Field update performed by `json.Unmarshal` for one object entry;
on a type error the field keeps its previous value (the decoder records
the error and continues). -/
def applyFieldVal (k : String) (v : Json) (n : ChangeNotification) : ChangeNotification :=
  if foldKey k = "table" then
    match v with
    | .str s => { n with table := s }
    | _ => n
  else if foldKey k = "operation" then
    match v with
    | .str s => { n with operation := s }
    | _ => n
  else if foldKey k = "data" then { n with data := some v }
  else if foldKey k = "timestamp" then
    match v with
    | .str s => if isRFC3339 s then { n with timestamp := ⟨s⟩ } else n
    | _ => n
  else n

/-- The object-decoding loop of `json.Unmarshal`: entries are processed
in payload order (so a repeated key overwrites, last value wins), the
first field error is saved, decoding continues, and the saved error —
if any — is returned at the end, discarding the partially filled
struct. -/
def decodeFields : List (String × Json) → ChangeNotification → Option String →
    Except String ChangeNotification
  | [], n, none => .ok n
  | [], _, some e => .error e
  | (k, v) :: rest, n, acc =>
    decodeFields rest (applyFieldVal k v n)
      (match acc with
       | some e => some e
       | none => fieldError k v)

/-- Model of `json.Unmarshal(payload, &notification)` from
`handleNotification` (`src/main.go` line 65): a syntax error fails; a
top-level `null` is a no-op that leaves the zero value; a top-level
object is decoded field by field; any other top level cannot be
unmarshalled into a struct. -/
def decodeChangeNotification : RawText → Except String ChangeNotification
  | .malformed => .error "invalid character in payload"
  | .json .null => .ok emptyChangeNotification
  | .json (.obj fields) => decodeFields fields emptyChangeNotification none
  | .json _ => .error "cannot unmarshal payload into Go value of type ChangeNotification"

/-- The consumer capability, interface `TableChangeHandler` from
`src/main.go` (lines 20–22): a single method taking the operation and
the raw row data and returning success or an error. -/
structure TableChangeHandler where
  handleChange : String → Option Json → Except String Unit

/-- The listener state, struct `DataListener` from `src/main.go`
(lines 38–41): the registry mapping table names to handlers.  (The
`db *sql.DB` handle is used only for construction and `Close` and
carries no dispatch-relevant state.) -/
structure DataListener where
  handlers : String → Option TableChangeHandler

/-- `NewDataListener` (`src/main.go` lines 43–57): starts with an empty
handler map. -/
def NewDataListener : DataListener :=
  { handlers := fun _ => none }

/-- `RegisterHandler` (`src/main.go` lines 59–61): plain map
assignment `dl.handlers[tableName] = handler`, translated to a
functional update of the state. -/
def RegisterHandler (dl : DataListener) (tableName : String)
    (handler : TableChangeHandler) : DataListener :=
  { handlers := fun k => if k = tableName then some handler else dl.handlers k }

/-- Observable result of one `handleNotification` call: the parse
error returned at `src/main.go` line 66, the silent `nil` return for an
unknown table (line 71), or the invocation of the resolved handler with
`(operation, data)` together with the handler's own result (line 74). -/
inductive HNResult where
  | parseError (msg : String)
  | noHandler (tbl : String)
  | handled (h : TableChangeHandler) (operation : String) (data : Option Json)
      (result : Except String Unit)

/-- The `error` value `handleNotification` returns to its caller. -/
def HNResult.toError : HNResult → Option String
  | .parseError msg => some msg
  | .noHandler _ => none
  | .handled _ _ _ (.error e) => some e
  | .handled _ _ _ (.ok _) => none

/-- One consumer invocation: which handler was called and with which
arguments. -/
structure Invocation where
  handler : TableChangeHandler
  operation : String
  data : Option Json

/-- The consumer invocations a `handleNotification` call performs. -/
def HNResult.invocations : HNResult → List Invocation
  | .handled h op d _ => [⟨h, op, d⟩]
  | _ => []

/-- `handleNotification` (`src/main.go` lines 63–75), in state-passing
form: the method could mutate the receiver, so the translation returns
the resulting listener state alongside the observable result.  The body
never writes `dl.handlers`, which the returned state reflects. -/
def handleNotification (dl : DataListener) (payload : RawText) :
    DataListener × HNResult :=
  match decodeChangeNotification payload with
  | .error e => (dl, .parseError ("failed to parse notification: " ++ e))
  | .ok n =>
    match dl.handlers n.table with
    | none => (dl, .noHandler n.table)
    | some h => (dl, .handled h n.operation n.data (h.handleChange n.operation n.data))

/-- One iteration of the `select` in `Start` (`src/main.go` lines
93–107): either the `listener.Notify` channel yields a notification
(possibly `nil`, which is skipped), or no notification arrives within
the liveness window and the `time.After` branch fires, carrying the
result of the `listener.Ping()` probe (`none` = probe succeeded). -/
inductive LoopInput where
  | notify (payload : RawText)
  | nilNotification
  | livenessTimeout (pingError : Option String)

/-- Observable trace of a run of the dispatch loop: consumer
invocations in order, the errors logged by `log.Printf("Error: %v")`,
and the number of liveness probes issued. -/
structure LoopTrace where
  invocations : List Invocation
  loggedErrors : List String
  probes : Nat

/-- The empty trace. -/
def LoopTrace.empty : LoopTrace := ⟨[], [], 0⟩

/-- Trace concatenation. -/
def LoopTrace.append (a b : LoopTrace) : LoopTrace :=
  ⟨a.invocations ++ b.invocations, a.loggedErrors ++ b.loggedErrors, a.probes + b.probes⟩

/-- Outcome of running the dispatch loop on a finite prefix of inputs:
still `running` when the inputs are exhausted, or terminated by the
`return err` of a failed liveness probe (`src/main.go` line 105). -/
inductive LoopOutcome where
  | running (t : LoopTrace)
  | fatal (err : String) (t : LoopTrace)

/-- Prepend the trace of an absorbed step to a loop outcome. -/
def LoopOutcome.prepend (a : LoopTrace) : LoopOutcome → LoopOutcome
  | .running t => .running (a.append t)
  | .fatal e t => .fatal e (a.append t)

/-- Whether the loop terminated with an error. -/
def LoopOutcome.isFatal : LoopOutcome → Bool
  | .running _ => false
  | .fatal _ _ => true

/-- The trace of a loop outcome. -/
def LoopOutcome.trace : LoopOutcome → LoopTrace
  | .running t => t
  | .fatal _ t => t

/-- The `for { select { ... } }` dispatch loop of `Start`
(`src/main.go` lines 93–108) over a finite list of loop inputs.  A
non-nil notification is passed to `handleNotification` and a returned
error is only logged; a nil notification is skipped; a liveness timeout
issues exactly one `Ping`, continuing on success and terminating the
loop with the probe's error on failure. -/
def startLoop (dl : DataListener) : List LoopInput → LoopOutcome
  | [] => .running .empty
  | .notify p :: rest =>
    let step := handleNotification dl p
    (startLoop step.1 rest).prepend
      ⟨step.2.invocations, step.2.toError.toList, 0⟩
  | .nilNotification :: rest => startLoop dl rest
  | .livenessTimeout none :: rest => (startLoop dl rest).prepend ⟨[], [], 1⟩
  | .livenessTimeout (some e) :: _ => .fatal e ⟨[], [], 1⟩

/-- Reconnect-backoff configuration of a `pq.Listener`. -/
structure SessionConfig where
  minReconnectInterval : Nat
  maxReconnectInterval : Nat

/-- The configuration `Start` passes to `pq.NewListener`
(`src/main.go` line 84): `10*time.Second` minimum reconnect interval
and `time.Minute` (= 60 seconds) maximum, in seconds. -/
def startSessionConfig : SessionConfig :=
  { minReconnectInterval := 10, maxReconnectInterval := 60 }

/-- The liveness window of the dispatch loop, `15 * time.Second` at
`src/main.go` line 101, in seconds.  A `LoopInput.livenessTimeout`
models this window elapsing with no notification received. -/
def livenessWindowSeconds : Nat := 15

/-- The single shared notification channel `Start` subscribes to
(`src/main.go` line 87). -/
def notificationChannelName : String := "data_changes"

/-- `Start` (`src/main.go` lines 77–109): constructs the session with
`startSessionConfig`, subscribes to `notificationChannelName`
(returning the subscription error, if any, before the loop begins), and
then runs the dispatch loop. -/
def Start (dl : DataListener) (listenError : Option String)
    (inputs : List LoopInput) : Except String LoopOutcome :=
  match listenError with
  | some e => .error e
  | none => .ok (startLoop dl inputs)

/-- Whether a decode attempt failed. -/
def exceptFails {α : Type} : Except String α → Bool
  | .error _ => true
  | .ok _ => false

/-- A payload is well formed when the envelope decodes. -/
def isWellFormed (p : RawText) : Bool :=
  !exceptFails (decodeChangeNotification p)

/-- A payload is deliverable when it decodes and its table has a
registered handler. -/
def isDeliverable (dl : DataListener) (p : RawText) : Bool :=
  match decodeChangeNotification p with
  | .ok n => (dl.handlers n.table).isSome
  | .error _ => false

/-- Modelled from the amended claim C1: a single object entry is
ill-typed when its key matches `table` or `operation` (case-
insensitively) and its value is neither a string nor `null`, or its
key matches `timestamp` and its value is neither `null` nor a string
accepted by the range-validated RFC 3339 parse; `data` and unknown
keys never are. -/
def specFieldIllTyped (k : String) (v : Json) : Bool :=
  if foldKey k = "table" ∨ foldKey k = "operation" then
    match v with
    | .str _ => false
    | .null => false
    | _ => true
  else if foldKey k = "timestamp" then
    match v with
    | .str s => !isRFC3339 s
    | .null => false
    | _ => true
  else false

/-- Modelled from the amended claim C1: a raw payload is a malformed
envelope when the text is not valid JSON, its top level is neither an
object nor `null`, or some entry of the top-level object is ill-typed.
Missing fields do not make an envelope malformed. -/
def malformedEnvelope : RawText → Bool
  | .malformed => true
  | .json .null => false
  | .json (.obj fields) => fields.any fun kv => specFieldIllTyped kv.1 kv.2
  | .json _ => true

/-- The value of the last object entry whose key matches `data`
(case-insensitively), if any: the value `json.Unmarshal` leaves in the
`Data` field of the struct. -/
def lastDataBinding : List (String × Json) → Option Json
  | [] => none
  | (k, v) :: rest =>
    match lastDataBinding rest with
    | some w => some w
    | none => if foldKey k = "data" then some v else none

/-- The last payload object entry that effectively sets a string field
bound to `field` (keys folded): a later entry wins, an entry with a
string value sets the field, and `null` entries are no-ops that
neither set nor clear it.  On a successful decode no other value shape
occurs for a string field, so this is the value `json.Unmarshal`
leaves in the field, when some entry set it. -/
def lastStrBinding (field : String) : List (String × Json) → Option String
  | [] => none
  | (k, v) :: rest =>
    match lastStrBinding field rest with
    | some w => some w
    | none =>
      if foldKey k = field then
        match v with
        | .str s => some s
        | _ => none
      else none

/-- Modelled from the amended claim C2: whether the payload itself
carries a valid event header — its effective `operation` binding is
one of `INSERT`, `UPDATE`, `DELETE` and its effective `table` binding
is a non-empty string.  Only an object payload can. -/
def payloadCarriesValidHeader : RawText → Bool
  | .json (.obj fs) =>
    (match lastStrBinding "operation" fs with
     | some op =>
       decide (op = "INSERT") || decide (op = "UPDATE") || decide (op = "DELETE")
     | none => false) &&
    (match lastStrBinding "table" fs with
     | some t => decide (t ≠ "")
     | none => false)
  | _ => false

/-- A consumer that always succeeds (the shape of `ConfigManager` and
`UserManager` in `src/main.go`, which log and return `nil`). -/
def okHandler : TableChangeHandler := ⟨fun _ _ => .ok ()⟩

/-- A consumer that always reports failure, for exercising the
consumer-failure path. -/
def failingHandler : TableChangeHandler := ⟨fun _ _ => .error "consumer failure"⟩

/-- The row document of the concrete scenario in the spec. -/
def sampleData : Json :=
  Json.obj [("id", Json.num 1), ("config_key", Json.str "debug_mode"),
            ("config_value", Json.str "true")]

/-- The concrete well-formed payload of the spec scenario: an `UPDATE`
on `s_config`. -/
def sConfigPayload : RawText :=
  RawText.json (Json.obj
    [("table", Json.str "s_config"), ("operation", Json.str "UPDATE"),
     ("data", sampleData), ("timestamp", Json.str "2024-01-01T12:00:00Z")])

/-- A well-formed payload for table `s_product`, which has no
registered consumer in the spec scenario. -/
def sProductPayload : RawText :=
  RawText.json (Json.obj
    [("table", Json.str "s_product"), ("operation", Json.str "INSERT"),
     ("data", Json.obj [("id", Json.num 2)]),
     ("timestamp", Json.str "2024-01-01T12:00:00Z")])

/-- The registration performed by `main` (`src/main.go` lines
124–125), with the always-succeeding consumer shape. -/
def mainListener : DataListener :=
  RegisterHandler (RegisterHandler NewDataListener "s_config" okHandler)
    "s_user" okHandler

/-- A listener whose `s_config` consumer reports failure. -/
def failingListener : DataListener :=
  RegisterHandler NewDataListener "s_config" failingHandler

/-! ### General lemmas about the embedding -/

/-- The body of `handleNotification` never writes the receiver: the
returned listener state is the argument state. -/
theorem handleNotification_fst (dl : DataListener) (p : RawText) :
    (handleNotification dl p).1 = dl := by
  unfold handleNotification
  split
  · rfl
  · split <;> rfl

/-- Prepending a step trace does not change whether the loop ended
fatally. -/
theorem prepend_isFatal (a : LoopTrace) (o : LoopOutcome) :
    (o.prepend a).isFatal = o.isFatal := by
  cases o <;> rfl

/-- The trace of a prepended outcome is the concatenation. -/
theorem prepend_trace (a : LoopTrace) (o : LoopOutcome) :
    (o.prepend a).trace = a.append o.trace := by
  cases o <;> rfl

/-- A prepended outcome is fatal with error `e` only if the underlying
outcome already was. -/
theorem prepend_eq_fatal (a : LoopTrace) (o : LoopOutcome) (e : String) (t : LoopTrace)
    (h : o.prepend a = .fatal e t) : ∃ t2, o = .fatal e t2 := by
  cases o with
  | running t0 => simp [LoopOutcome.prepend] at h
  | fatal e0 t0 =>
    simp [LoopOutcome.prepend] at h
    exact ⟨t0, by rw [h.1]⟩

/-- Key folding on the four literal field names. -/
theorem foldKey_table : foldKey "table" = "table" := rfl

/-- Key folding on the four literal field names. -/
theorem foldKey_operation : foldKey "operation" = "operation" := rfl

/-- Key folding on the four literal field names. -/
theorem foldKey_data : foldKey "data" = "data" := rfl

/-- Key folding on the four literal field names. -/
theorem foldKey_timestamp : foldKey "timestamp" = "timestamp" := rfl

/-- A single object entry produces a decode error exactly when it is
ill-typed in the sense of `specFieldIllTyped`. -/
theorem fieldError_isSome_eq (k : String) (v : Json) :
    (fieldError k v).isSome = specFieldIllTyped k v := by
  unfold fieldError specFieldIllTyped
  by_cases h1 : foldKey k = "table"
  · simp [h1]; cases v <;> simp
  · by_cases h2 : foldKey k = "operation"
    · simp [h1, h2]; cases v <;> simp
    · by_cases h3 : foldKey k = "data"
      · simp [h1, h2, h3]
      · by_cases h4 : foldKey k = "timestamp"
        · simp [h1, h2, h3, h4]
          cases v <;> simp
          rename_i s
          cases hi : isRFC3339 s <;> simp [hi]
        · simp [h1, h2, h3, h4]

/-- The field-decoding loop fails exactly when an error was already
saved or some entry is ill-typed. -/
theorem decodeFields_fails (fs : List (String × Json)) :
    ∀ (n : ChangeNotification) (acc : Option String),
      exceptFails (decodeFields fs n acc) =
        (acc.isSome || fs.any fun kv => (fieldError kv.1 kv.2).isSome) := by
  induction fs with
  | nil => intro n acc; cases acc <;> rfl
  | cons kv rest ih =>
    intro n acc
    obtain ⟨k, v⟩ := kv
    cases acc with
    | none => simp [decodeFields, ih, List.any_cons]
    | some e => simp [decodeFields, ih, List.any_cons]

/-- Decoding an envelope fails exactly on the payloads
`malformedEnvelope` describes. -/
theorem decode_fails_iff (p : RawText) :
    exceptFails (decodeChangeNotification p) = malformedEnvelope p := by
  cases p with
  | malformed => rfl
  | json j =>
    cases j with
    | null => rfl
    | obj fields =>
      simp [decodeChangeNotification, malformedEnvelope, decodeFields_fails,
        fieldError_isSome_eq]
    | bool b => rfl
    | num n => rfl
    | str s => rfl
    | arr xs => rfl

/-- Effect of one field-decoding step on the `data` field: only an
entry whose key matches `data` changes it, to the raw entry value. -/
theorem applyFieldVal_data (k : String) (v : Json) (n : ChangeNotification) :
    (applyFieldVal k v n).data = if foldKey k = "data" then some v else n.data := by
  unfold applyFieldVal
  by_cases h1 : foldKey k = "table"
  · simp [h1]; cases v <;> rfl
  · by_cases h2 : foldKey k = "operation"
    · simp [h1, h2]; cases v <;> rfl
    · by_cases h3 : foldKey k = "data"
      · simp [h1, h2, h3]
      · by_cases h4 : foldKey k = "timestamp"
        · simp [h1, h2, h3, h4]
          cases v <;> simp
          rename_i s
          cases hi : isRFC3339 s <;> simp [hi]
        · simp [h1, h2, h3, h4]

/-- A successful decode leaves in `data` the value of the last `data`
entry of the payload object, or the initial value when there is none:
the raw document is preserved verbatim. -/
theorem decodeFields_ok_data (fs : List (String × Json)) :
    ∀ (n n' : ChangeNotification) (acc : Option String),
      decodeFields fs n acc = .ok n' →
      n'.data = (match lastDataBinding fs with
                 | some w => some w
                 | none => n.data) := by
  induction fs with
  | nil =>
    intro n n' acc h
    cases acc with
    | none =>
      simp [decodeFields] at h
      simp [lastDataBinding, ← h]
    | some e => simp [decodeFields] at h
  | cons kv rest ih =>
    intro n n' acc h
    obtain ⟨k, v⟩ := kv
    simp [decodeFields] at h
    have hd := ih (applyFieldVal k v n) n' _ h
    rw [applyFieldVal_data] at hd
    rcases hl : lastDataBinding rest with _ | w
    · rw [hl] at hd
      by_cases hk : foldKey k = "data"
      · simp [lastDataBinding, hl, hk] at hd ⊢
        exact hd
      · simp [lastDataBinding, hl, hk] at hd ⊢
        exact hd
    · rw [hl] at hd
      simp [lastDataBinding, hl]
      exact hd

/-- Effect of one field-decoding step on the `table` field: only an
entry whose key folds to `table` and carries a string changes it. -/
theorem applyFieldVal_table (k : String) (v : Json) (n : ChangeNotification) :
    (applyFieldVal k v n).table =
      (if foldKey k = "table" then
        (match v with
         | Json.str s => s
         | _ => n.table)
       else n.table) := by
  unfold applyFieldVal
  by_cases h1 : foldKey k = "table"
  · simp [h1]
    cases v <;> rfl
  · by_cases h2 : foldKey k = "operation"
    · simp [h1, h2]
      cases v <;> rfl
    · by_cases h3 : foldKey k = "data"
      · simp [h1, h2, h3]
      · by_cases h4 : foldKey k = "timestamp"
        · simp [h1, h2, h3, h4]
          cases v <;> simp
          rename_i s
          cases hi : isRFC3339 s <;> simp [hi]
        · simp [h1, h2, h3, h4]

/-- Effect of one field-decoding step on the `operation` field: only
an entry whose key folds to `operation` and carries a string changes
it. -/
theorem applyFieldVal_operation (k : String) (v : Json) (n : ChangeNotification) :
    (applyFieldVal k v n).operation =
      (if foldKey k = "operation" then
        (match v with
         | Json.str s => s
         | _ => n.operation)
       else n.operation) := by
  unfold applyFieldVal
  by_cases h1 : foldKey k = "table"
  · simp [h1]
    cases v <;> rfl
  · by_cases h2 : foldKey k = "operation"
    · simp [h1, h2]
      cases v <;> rfl
    · by_cases h3 : foldKey k = "data"
      · simp [h1, h2, h3]
      · by_cases h4 : foldKey k = "timestamp"
        · simp [h1, h2, h3, h4]
          cases v <;> simp
          rename_i s
          cases hi : isRFC3339 s <;> simp [hi]
        · simp [h1, h2, h3, h4]

/-- A successful decode leaves in `table` the payload's last effective
string binding for `table`, or the initial value when there is
none. -/
theorem decodeFields_ok_table (fs : List (String × Json)) :
    ∀ (n n' : ChangeNotification) (acc : Option String),
      decodeFields fs n acc = .ok n' →
      n'.table = (lastStrBinding "table" fs).getD n.table := by
  induction fs with
  | nil =>
    intro n n' acc h
    cases acc with
    | none =>
      simp [decodeFields] at h
      simp [lastStrBinding, ← h]
    | some e => simp [decodeFields] at h
  | cons kv rest ih =>
    intro n n' acc h
    obtain ⟨k, v⟩ := kv
    simp [decodeFields] at h
    have hd := ih (applyFieldVal k v n) n' _ h
    rw [applyFieldVal_table] at hd
    rcases hl : lastStrBinding "table" rest with _ | w
    · rw [hl] at hd
      by_cases hk : foldKey k = "table"
      · rw [if_pos hk] at hd
        cases v <;> simp [lastStrBinding, hl, hk] <;> simp_all
      · rw [if_neg hk] at hd
        simp [lastStrBinding, hl, hk]
        simpa using hd
    · rw [hl] at hd
      simp [lastStrBinding, hl]
      simpa using hd

/-- A successful decode leaves in `operation` the payload's last
effective string binding for `operation`, or the initial value when
there is none. -/
theorem decodeFields_ok_operation (fs : List (String × Json)) :
    ∀ (n n' : ChangeNotification) (acc : Option String),
      decodeFields fs n acc = .ok n' →
      n'.operation = (lastStrBinding "operation" fs).getD n.operation := by
  induction fs with
  | nil =>
    intro n n' acc h
    cases acc with
    | none =>
      simp [decodeFields] at h
      simp [lastStrBinding, ← h]
    | some e => simp [decodeFields] at h
  | cons kv rest ih =>
    intro n n' acc h
    obtain ⟨k, v⟩ := kv
    simp [decodeFields] at h
    have hd := ih (applyFieldVal k v n) n' _ h
    rw [applyFieldVal_operation] at hd
    rcases hl : lastStrBinding "operation" rest with _ | w
    · rw [hl] at hd
      by_cases hk : foldKey k = "operation"
      · rw [if_pos hk] at hd
        cases v <;> simp [lastStrBinding, hl, hk] <;> simp_all
      · rw [if_neg hk] at hd
        simp [lastStrBinding, hl, hk]
        simpa using hd
    · rw [hl] at hd
      simp [lastStrBinding, hl]
      simpa using hd

/-- Unfolding of the dispatch loop on a received notification: the
step's invocations and logged error are prepended and the loop
continues with the same listener state. -/
theorem startLoop_notify (dl : DataListener) (p : RawText) (rest : List LoopInput) :
    startLoop dl (LoopInput.notify p :: rest) =
      (startLoop dl rest).prepend
        ⟨(handleNotification dl p).2.invocations,
         (handleNotification dl p).2.toError.toList, 0⟩ := by
  simp [startLoop, handleNotification_fst]

/-- Dispatching one payload performs exactly one consumer invocation
when the payload is deliverable and none otherwise. -/
theorem handleNotification_invocations_length (dl : DataListener) (p : RawText) :
    ((handleNotification dl p).2.invocations).length =
      (if isDeliverable dl p = true then 1 else 0) := by
  unfold handleNotification isDeliverable
  cases hd : decodeChangeNotification p with
  | error e => simp [HNResult.invocations]
  | ok n =>
    cases hh : dl.handlers n.table with
    | none => simp [HNResult.invocations, hh]
    | some h => simp [HNResult.invocations, hh]

/-- Deliverable payloads are well formed. -/
theorem isDeliverable_wellFormed (dl : DataListener) (p : RawText)
    (h : isDeliverable dl p = true) : isWellFormed p = true := by
  unfold isDeliverable at h
  unfold isWellFormed exceptFails
  cases hd : decodeChangeNotification p with
  | error e => rw [hd] at h; simp at h
  | ok n => simp

/-! ### Claims -/

/-- Claim C1, counterexample: the empty JSON object is valid structured
data that is missing all four required fields (`table`, `operation`,
`data`, `timestamp`), yet decoding succeeds with the zero-valued
envelope instead of failing, so decoding does not fail when a required
field is missing. -/
theorem C1_counterexample :
    decodeChangeNotification (RawText.json (Json.obj [])) =
      Except.ok emptyChangeNotification ∧
    emptyChangeNotification.table = "" ∧
    emptyChangeNotification.operation = "" ∧
    emptyChangeNotification.data = none := ⟨rfl, rfl, rfl, rfl⟩

/-- Claim C1, amended: for every raw payload, decoding fails exactly
when the raw text is not valid structured data for the envelope — the
text is not valid JSON, its top level is neither an object nor `null`,
or some present field (keys matched with the JSON case folding) has a
value of the wrong type: `table` or `operation` bound to a non-string,
or `timestamp` bound to a value that is neither `null` nor a string
accepted by the range-validated RFC 3339 parse; a missing field never
causes failure and is left at its zero value.  On failure no
ChangeEvent is produced (the decoder returns only an error) and no
consumer is invoked for that payload. -/
theorem C1_theorem (p : RawText) (dl : DataListener) :
    exceptFails (decodeChangeNotification p) = malformedEnvelope p ∧
    (exceptFails (decodeChangeNotification p) = true →
      (handleNotification dl p).2.invocations = [] ∧
      ∃ msg, (handleNotification dl p).2 = HNResult.parseError msg) := by
  refine ⟨decode_fails_iff p, fun hfail => ?_⟩
  cases hd : decodeChangeNotification p with
  | error e => simp [handleNotification, hd, HNResult.invocations]
  | ok n =>
    rw [hd] at hfail
    simp [exceptFails] at hfail

/-- Claim C1, witness: dispatching a syntactically invalid payload to a
fresh listener invokes no consumer and yields only a parse error. -/
theorem C1_witness :
    (handleNotification NewDataListener RawText.malformed).2.invocations = [] ∧
    ∃ msg, (handleNotification NewDataListener RawText.malformed).2 =
      HNResult.parseError msg :=
  (C1_theorem RawText.malformed NewDataListener).2 rfl

/-- Claim C2, counterexample: a payload whose `operation` is `TRUNCATE`
(outside the claimed closed enumeration) and whose `table` is the empty
string decodes successfully, so a successfully decoded event need not
satisfy either part of the claim. -/
theorem C2_counterexample :
    decodeChangeNotification (RawText.json (Json.obj
      [("table", Json.str ""), ("operation", Json.str "TRUNCATE"),
       ("data", Json.obj []), ("timestamp", Json.str "2024-01-01T12:00:00Z")])) =
      Except.ok { table := "", operation := "TRUNCATE", data := some (Json.obj []),
                  timestamp := ⟨"2024-01-01T12:00:00Z"⟩ } ∧
    ¬("TRUNCATE" = "INSERT" ∨ "TRUNCATE" = "UPDATE" ∨ "TRUNCATE" = "DELETE") ∧
    ("" : String).length = 0 := ⟨rfl, by decide, rfl⟩

/-- Claim C2, amended: decoding validates neither the operation
enumeration nor non-emptiness of the table; for every successfully
decoded ChangeEvent the `table` and `operation` fields are the
payload's effective bindings preserved verbatim, so the event's
operation lies in {INSERT, UPDATE, DELETE} and its table is non-empty
exactly when the payload itself — as the documented producer
guarantees — already carries such values. -/
theorem C2_theorem (p : RawText) (n : ChangeNotification)
    (hdec : decodeChangeNotification p = Except.ok n) :
    (∀ fs, p = RawText.json (Json.obj fs) →
      n.table = (lastStrBinding "table" fs).getD "" ∧
      n.operation = (lastStrBinding "operation" fs).getD "") ∧
    (((n.operation = "INSERT" ∨ n.operation = "UPDATE" ∨ n.operation = "DELETE") ∧
        n.table ≠ "") ↔ payloadCarriesValidHeader p = true) := by
  cases p with
  | malformed => simp [decodeChangeNotification] at hdec
  | json j =>
    cases j with
    | null =>
      simp [decodeChangeNotification] at hdec
      constructor
      · intro fs hfs
        simp at hfs
      · rw [← hdec]
        simp [payloadCarriesValidHeader, emptyChangeNotification]
    | obj fs =>
      have hfields : decodeFields fs emptyChangeNotification none = Except.ok n := hdec
      have ht := decodeFields_ok_table fs emptyChangeNotification n none hfields
      have ho := decodeFields_ok_operation fs emptyChangeNotification n none hfields
      rw [show emptyChangeNotification.table = "" from rfl] at ht
      rw [show emptyChangeNotification.operation = "" from rfl] at ho
      constructor
      · intro fs2 hfs
        simp at hfs
        subst hfs
        exact ⟨ht, ho⟩
      · rw [ht, ho]
        rcases hop : lastStrBinding "operation" fs with _ | op <;>
          rcases htb : lastStrBinding "table" fs with _ | t <;>
            simp [payloadCarriesValidHeader, hop, htb]
        tauto
    | bool b => simp [decodeChangeNotification] at hdec
    | num m => simp [decodeChangeNotification] at hdec
    | str s => simp [decodeChangeNotification] at hdec
    | arr xs => simp [decodeChangeNotification] at hdec

/-- Claim C2, witness: the spec's concrete `s_config` UPDATE payload
decodes to an event whose header is the payload's verbatim bindings
and satisfies the enumeration and non-emptiness, which the payload
itself carries. -/
theorem C2_witness :
    (∀ fs, sConfigPayload = RawText.json (Json.obj fs) →
      ("s_config" : String) = (lastStrBinding "table" fs).getD "" ∧
      ("UPDATE" : String) = (lastStrBinding "operation" fs).getD "") ∧
    (((("UPDATE" : String) = "INSERT" ∨ ("UPDATE" : String) = "UPDATE" ∨
        ("UPDATE" : String) = "DELETE") ∧ ("s_config" : String) ≠ "") ↔
      payloadCarriesValidHeader sConfigPayload = true) :=
  C2_theorem sConfigPayload
    ⟨"s_config", "UPDATE", some sampleData, ⟨"2024-01-01T12:00:00Z"⟩⟩ rfl

/-- Claim C3: for every registered (table, consumer) pair and every
payload decoding to an event for that table, dispatch invokes exactly
that consumer and no other, passing the event's operation and its
`data` payload; and the `data` the consumer receives is the raw value
of the payload's (last) `data` entry, preserved verbatim as a
re-parseable document. -/
theorem C3_theorem (dl : DataListener) (p : RawText) (n : ChangeNotification)
    (h : TableChangeHandler)
    (hdec : decodeChangeNotification p = Except.ok n)
    (hreg : dl.handlers n.table = some h) :
    (handleNotification dl p).2 =
      HNResult.handled h n.operation n.data (h.handleChange n.operation n.data) ∧
    (handleNotification dl p).2.invocations = [⟨h, n.operation, n.data⟩] ∧
    ∀ fs, p = RawText.json (Json.obj fs) → n.data = lastDataBinding fs := by
  refine ⟨?_, ?_, ?_⟩
  · simp [handleNotification, hdec, hreg]
  · simp [handleNotification, hdec, hreg, HNResult.invocations]
  · intro fs hp
    subst hp
    have hfields : decodeFields fs emptyChangeNotification none = Except.ok n := hdec
    have := decodeFields_ok_data fs emptyChangeNotification n none hfields
    rcases hl : lastDataBinding fs with _ | w <;> rw [hl] at this <;>
      simpa [emptyChangeNotification] using this

/-- Claim C3, witness: with `s_config` and `s_user` registered as in
`main`, the spec's concrete `s_config` UPDATE payload is delivered to
exactly the `s_config` consumer with operation `UPDATE` and the
payload's `data` document. -/
theorem C3_witness :
    (handleNotification mainListener sConfigPayload).2 =
      HNResult.handled okHandler "UPDATE" (some sampleData)
        (okHandler.handleChange "UPDATE" (some sampleData)) ∧
    (handleNotification mainListener sConfigPayload).2.invocations =
      [⟨okHandler, "UPDATE", some sampleData⟩] ∧
    ∀ fs, sConfigPayload = RawText.json (Json.obj fs) →
      (some sampleData : Option Json) = lastDataBinding fs :=
  C3_theorem mainListener sConfigPayload
    ⟨"s_config", "UPDATE", some sampleData, ⟨"2024-01-01T12:00:00Z"⟩⟩
    okHandler rfl rfl

/-- Claim C4: for every well-formed event whose table has no registered
consumer, dispatch performs no consumer invocation and returns no error
— the event is silently skipped. -/
theorem C4_theorem (dl : DataListener) (p : RawText) (n : ChangeNotification)
    (hdec : decodeChangeNotification p = Except.ok n)
    (hun : dl.handlers n.table = none) :
    (handleNotification dl p).2 = HNResult.noHandler n.table ∧
    (handleNotification dl p).2.invocations = [] ∧
    (handleNotification dl p).2.toError = none := by
  simp [handleNotification, hdec, hun, HNResult.invocations, HNResult.toError]

/-- Claim C4, witness: the spec's `s_product` scenario — an event for
an unregistered table produces zero invocations and no error. -/
theorem C4_witness :
    (handleNotification mainListener sProductPayload).2 =
      HNResult.noHandler "s_product" ∧
    (handleNotification mainListener sProductPayload).2.invocations = [] ∧
    (handleNotification mainListener sProductPayload).2.toError = none :=
  C4_theorem mainListener sProductPayload
    ⟨"s_product", "INSERT", some (Json.obj [("id", Json.num 2)]),
      ⟨"2024-01-01T12:00:00Z"⟩⟩ rfl rfl

/-- Claim C5, counterexample: one well-formed event (N = 1) addressed
to a table with no registered consumer, interleaved with zero malformed
payloads (M = 0), produces 0 consumer invocations rather than N = 1, so
the claim fails for well-formed events whose table is unregistered. -/
theorem C5_counterexample :
    isWellFormed sProductPayload = true ∧
    startLoop NewDataListener [LoopInput.notify sProductPayload] =
      LoopOutcome.running ⟨[], [], 0⟩ := ⟨rfl, rfl⟩

/-- Claim C5, amended: for every sequence of N well-formed events whose
tables are registered, interleaved with M malformed payloads, feeding
the sequence to the dispatch loop produces exactly N consumer
invocations and the loop never terminates due to a malformed payload
(each failure is only logged and the payload dropped). -/
theorem C5_theorem (dl : DataListener) (payloads : List RawText) :
    (∀ p ∈ payloads, isWellFormed p = true → isDeliverable dl p = true) →
    (startLoop dl (payloads.map LoopInput.notify)).isFatal = false ∧
    (startLoop dl (payloads.map LoopInput.notify)).trace.invocations.length =
      payloads.countP (fun p => isWellFormed p) := by
  induction payloads with
  | nil => intro _; exact ⟨rfl, rfl⟩
  | cons p rest ih =>
    intro hcov
    obtain ⟨ihf, ihl⟩ := ih (fun q hq => hcov q (List.mem_cons_of_mem _ hq))
    rw [List.map_cons, startLoop_notify]
    refine ⟨by rw [prepend_isFatal, ihf], ?_⟩
    rw [prepend_trace]
    simp only [LoopTrace.append, List.length_append, ihl,
      handleNotification_invocations_length, List.countP_cons]
    by_cases hw : isWellFormed p = true
    · rw [if_pos (hcov p (List.mem_cons_self _ _) hw)]
      simp [hw, Nat.add_comm]
    · have hnd : isDeliverable dl p = false := by
        cases hd : isDeliverable dl p
        · rfl
        · exact absurd (isDeliverable_wellFormed dl p hd) hw
      rw [hnd]
      simp at hw
      simp [hw]

/-- Claim C5, witness: one deliverable `s_config` event interleaved
with one malformed payload yields exactly one invocation and a loop
that is still running. -/
theorem C5_witness :
    (startLoop mainListener
        ([sConfigPayload, RawText.malformed].map LoopInput.notify)).isFatal = false ∧
    (startLoop mainListener
        ([sConfigPayload, RawText.malformed].map LoopInput.notify)).trace.invocations.length =
      [sConfigPayload, RawText.malformed].countP (fun p => isWellFormed p) :=
  C5_theorem mainListener [sConfigPayload, RawText.malformed]
    (fun p hp hw => by
      cases hp with
      | head => rfl
      | tail _ hp2 =>
        cases hp2 with
        | head => exact Bool.noConfusion hw
        | tail _ hp3 => cases hp3)

/-- Claim C6: when a consumer invocation reports failure, the failure
is logged and the dispatch loop continues — the loop's fatality is
unchanged by the failing event, the invocation still appears in front
of the unchanged deliveries of all subsequent inputs, and the
consumer's error is the logged entry for the event. -/
theorem C6_theorem (dl : DataListener) (p : RawText) (rest : List LoopInput)
    (h : TableChangeHandler) (op : String) (d : Option Json) (e : String)
    (hfail : (handleNotification dl p).2 = HNResult.handled h op d (Except.error e)) :
    (startLoop dl (LoopInput.notify p :: rest)).isFatal = (startLoop dl rest).isFatal ∧
    (startLoop dl (LoopInput.notify p :: rest)).trace.invocations =
      ⟨h, op, d⟩ :: (startLoop dl rest).trace.invocations ∧
    (startLoop dl (LoopInput.notify p :: rest)).trace.loggedErrors =
      e :: (startLoop dl rest).trace.loggedErrors := by
  rw [startLoop_notify, hfail]
  refine ⟨prepend_isFatal _ _, ?_, ?_⟩ <;>
    simp [prepend_trace, LoopTrace.append, HNResult.invocations, HNResult.toError]

/-- Claim C6, witness: a failing `s_config` consumer has its error
logged while a subsequent event for the same table is still
delivered. -/
theorem C6_witness :
    (startLoop failingListener
        [LoopInput.notify sConfigPayload, LoopInput.notify sConfigPayload]).isFatal =
      (startLoop failingListener [LoopInput.notify sConfigPayload]).isFatal ∧
    (startLoop failingListener
        [LoopInput.notify sConfigPayload, LoopInput.notify sConfigPayload]).trace.invocations =
      ⟨failingHandler, "UPDATE", some sampleData⟩ ::
        (startLoop failingListener [LoopInput.notify sConfigPayload]).trace.invocations ∧
    (startLoop failingListener
        [LoopInput.notify sConfigPayload, LoopInput.notify sConfigPayload]).trace.loggedErrors =
      "consumer failure" ::
        (startLoop failingListener [LoopInput.notify sConfigPayload]).trace.loggedErrors :=
  C6_theorem failingListener sConfigPayload [LoopInput.notify sConfigPayload]
    failingHandler "UPDATE" (some sampleData) "consumer failure" rfl

/-- Claim C7: the dispatch loop terminates with an error exactly when a
liveness probe fails, and the error it propagates is that probe's
error; every other failure class (malformed envelope, unregistered
table, consumer failure, nil notifications from reconnections) is
absorbed inside the loop. -/
theorem C7_theorem (dl : DataListener) (inputs : List LoopInput) :
    ((startLoop dl inputs).isFatal = true ↔
      ∃ e, LoopInput.livenessTimeout (some e) ∈ inputs) ∧
    ∀ e t, startLoop dl inputs = LoopOutcome.fatal e t →
      LoopInput.livenessTimeout (some e) ∈ inputs := by
  induction inputs with
  | nil =>
    refine ⟨by simp [startLoop, LoopOutcome.isFatal], ?_⟩
    intro e t h
    simp [startLoop] at h
  | cons i rest ih =>
    obtain ⟨ih1, ih2⟩ := ih
    cases i with
    | notify p =>
      rw [startLoop_notify]
      constructor
      · rw [prepend_isFatal, ih1]
        simp [List.mem_cons]
      · intro e t h
        obtain ⟨t2, h2⟩ := prepend_eq_fatal _ _ _ _ h
        exact List.mem_cons_of_mem _ (ih2 e t2 h2)
    | nilNotification =>
      constructor
      · rw [show startLoop dl (LoopInput.nilNotification :: rest) = startLoop dl rest
          from rfl, ih1]
        simp [List.mem_cons]
      · intro e t h
        exact List.mem_cons_of_mem _ (ih2 e t h)
    | livenessTimeout pe =>
      cases pe with
      | none =>
        constructor
        · rw [show startLoop dl (LoopInput.livenessTimeout none :: rest) =
              (startLoop dl rest).prepend ⟨[], [], 1⟩ from rfl, prepend_isFatal, ih1]
          simp [List.mem_cons]
        · intro e t h
          obtain ⟨t2, h2⟩ := prepend_eq_fatal _ _ _ _ h
          exact List.mem_cons_of_mem _ (ih2 e t2 h2)
      | some e0 =>
        constructor
        · exact iff_of_true rfl ⟨e0, List.mem_cons_self _ _⟩
        · intro e t h
          simp [startLoop] at h
          rw [← h.1]
          exact List.mem_cons_self _ _

/-- Claim C7, witness: a concrete run that ends fatally does contain a
failing liveness probe among its inputs. -/
theorem C7_witness :
    LoopInput.livenessTimeout (some "ping failure") ∈
      ([LoopInput.notify sConfigPayload,
        LoopInput.livenessTimeout (some "ping failure")] : List LoopInput) :=
  (C7_theorem mainListener
      [LoopInput.notify sConfigPayload,
       LoopInput.livenessTimeout (some "ping failure")]).2
    "ping failure" _ (by rfl)

/-- Claim C8: registering a consumer for an already-registered table
key unconditionally replaces the prior association (last registration
wins, and registration has no error condition by its type), and
registrations for other keys are unaffected. -/
theorem C8_theorem (dl : DataListener) (k k2 : String)
    (c1 c2 : TableChangeHandler) (hk : k2 ≠ k) :
    (RegisterHandler (RegisterHandler dl k c1) k c2).handlers k = some c2 ∧
    (RegisterHandler (RegisterHandler dl k c1) k c2).handlers k2 = dl.handlers k2 := by
  constructor
  · simp [RegisterHandler]
  · simp [RegisterHandler, hk]

/-- Claim C8, witness: re-registering `s_config` replaces the failing
consumer with the succeeding one and leaves `s_user` untouched. -/
theorem C8_witness :
    (RegisterHandler (RegisterHandler NewDataListener "s_config" failingHandler)
        "s_config" okHandler).handlers "s_config" = some okHandler ∧
    (RegisterHandler (RegisterHandler NewDataListener "s_config" failingHandler)
        "s_config" okHandler).handlers "s_user" = NewDataListener.handlers "s_user" :=
  C8_theorem NewDataListener "s_config" "s_user" failingHandler okHandler (by decide)

/-- Claim C9: the session is constructed with a minimum reconnect
interval of 10 time units and a maximum retry interval of 60 time
units; the liveness window is 15 time units, and when the window
elapses with no notification, exactly one liveness probe is issued
before the loop resumes (i.e. before the next window can elapse) —
whether the probe succeeds (one probe added, loop continues) or fails
(the run ends having issued exactly that one probe). -/
theorem C9_theorem :
    startSessionConfig.minReconnectInterval = 10 ∧
    startSessionConfig.maxReconnectInterval = 60 ∧
    livenessWindowSeconds = 15 ∧
    (∀ (dl : DataListener) (rest : List LoopInput),
      (startLoop dl (LoopInput.livenessTimeout none :: rest)).trace.probes =
        (startLoop dl rest).trace.probes + 1) ∧
    (∀ (dl : DataListener) (e : String) (rest : List LoopInput),
      startLoop dl (LoopInput.livenessTimeout (some e) :: rest) =
        LoopOutcome.fatal e ⟨[], [], 1⟩) := by
  refine ⟨rfl, rfl, rfl, ?_, fun dl e rest => rfl⟩
  intro dl rest
  show ((startLoop dl rest).prepend ⟨[], [], 1⟩).trace.probes = _
  rw [prepend_trace]
  simp [LoopTrace.append, Nat.add_comm]

/-- Claim C10: dispatching a notification never modifies the handler
registry — for every payload, well-formed or malformed, registered or
unregistered table, the handlers map after `handleNotification` maps
every key to the same consumer as before the call. -/
theorem C10_theorem (dl : DataListener) (p : RawText) (k : String) :
    ((handleNotification dl p).1).handlers k = dl.handlers k := by
  rw [handleNotification_fst]

end PgDataListener
